import Mathlib

/-!
Verification development for the crawl-canvas resource-finding pipeline
(src/canvas.py).  The Python code is shallowly embedded: the external
Canvas catalog and the Gemini classifier are modelled as oracles held in
an environment record, every internal algorithm (course resolution,
module selection, resource collection, the merge-and-sort step and the
fallback handling of the helper functions) is translated into an
executable Lean function, and the theorems below settle the frozen
claims against those functions.

Numeric abstraction: Python floats are modelled as rationals.  All
scores appearing in the program are small exact fractions (overlap
counts divided by token counts, and literals such as 0.8), whose
comparisons coincide with the rational ones.
-/

/-! ### Python string primitives

Lean re-implementations of the Python `str` operations used by
`canvas.py`: `str.lower`, `str.split()` (splitting on whitespace runs,
dropping empty fragments) and the substring test `needle in hay`.
They are written by structural recursion over the character list so
that every theorem below can be checked by kernel evaluation.
-/

/-- Python `str.lower`: lower-case every character. -/
def pyLower (s : String) : String := String.mk (s.data.map Char.toLower)

/-- Worker for `pySplit`: walk the characters, accumulating the current
word (in reverse); whitespace closes the current word. -/
def splitWsAux : List Char → List Char → List String
  | [], acc => if acc = [] then [] else [String.mk acc.reverse]
  | c :: cs, acc =>
    if c.isWhitespace then
      (if acc = [] then splitWsAux cs [] else String.mk acc.reverse :: splitWsAux cs [])
    else splitWsAux cs (c :: acc)

/-- Python `str.split()` with no argument: split on whitespace runs,
never producing empty words. -/
def pySplit (s : String) : List String := splitWsAux s.data []

/-- Whether the first list is a prefix of the second (on characters). -/
def startsWithChars : List Char → List Char → Bool
  | [], _ => true
  | _ :: _, [] => false
  | a :: as, b :: bs => a == b && startsWithChars as bs

/-- Whether the first list occurs contiguously inside the second. -/
def charsWithin : List Char → List Char → Bool
  | needle, [] => needle.isEmpty
  | needle, b :: bs =>
    startsWithChars needle (b :: bs) || charsWithin needle bs

/-- Python `needle in hay` on strings. -/
def containsStr (hay needle : String) : Bool := charsWithin needle.data hay.data

/-- Python list indexing `l[i]` for an `int` index: non-negative
indices count from the front, negative indices from the back, and an
out-of-range index is an `IndexError`, modelled as `none`. -/
def pyIndex {α : Type} (l : List α) (i : Int) : Option α :=
  if 0 ≤ i then l.get? i.toNat
  else
    let j : Int := (l.length : Int) + i
    if 0 ≤ j then l.get? j.toNat else none

/-! ### Course resolution (find_resources, lines 726-775)

The classifier's raw course guess is validated against the fetched
course names.  The Python loop keeps a pair (best_match,
best_match_score); for each candidate it computes the token-overlap
score of the QUERY against the candidate when both token sets are
non-empty, and otherwise falls back to a case-insensitive substring
test of the raw guess, recorded only while best_match is still None.
After the loop, both the score >= 0.2 branch and its plain else branch
assign course_name = best_match, so the threshold influences only the
log message, never the selection.  Scores are exact rationals built
with mkRat, the faithful counterpart of the Python float quotient for
the small fractions arising here.
-/

/-- Token set from lines 734-735: lower-cased whitespace words of the
string with length > 3, duplicates removed (Python builds a set). -/
def wordsGT3 (s : String) : List String :=
  (((pySplit s).filter (fun w => 3 < w.length)).map pyLower).dedup

/-- Overlap score from lines 737-740:
|intersection| / min(|query_words|, |name_words|); defined as 0 when a
token set is empty, matching the guard that only computes the quotient
when both sets are truthy. -/
def overlapScore (q n : String) : ℚ :=
  if wordsGT3 q = [] ∨ wordsGT3 n = [] then 0
  else
    mkRat (((wordsGT3 q).filter (fun w => decide (w ∈ wordsGT3 n))).length : Int)
      (min (wordsGT3 q).length (wordsGT3 n).length)

/-- The claim's own scoring formula, which tokenizes the RAW GUESS
rather than the free-text query; stated only to compare the spec's
words with the code's behaviour. -/
def specGuessScore (guess n : String) : ℚ := overlapScore guess n

/-- Case-insensitive mutual substring test on the raw guess, line 748. -/
def substrMatch (guess name : String) : Bool :=
  containsStr (pyLower name) (pyLower guess) || containsStr (pyLower guess) (pyLower name)

/-- One iteration of the matching loop (lines 732-751) over the state
(best_match, best_match_score). -/
def scanStep (guess q : String) (st : Option String × ℚ) (name : String) :
    Option String × ℚ :=
  if wordsGT3 q ≠ [] ∧ wordsGT3 name ≠ [] then
    (if st.2 < overlapScore q name then (some name, overlapScore q name) else st)
  else if substrMatch guess name then
    (if st.1.isNone then (some name, st.2) else st)
  else st

/-- Running maximum of the overlap scores, the value best_match_score
tracks; written with an if to mirror the strict comparison at 743. -/
def maxFrom (q : String) (s : ℚ) (names : List String) : ℚ :=
  names.foldl (fun a n => if a < overlapScore q n then overlapScore q n else a) s

/-- Keyword fallback (lines 761-770): the first course whose lower-cased
name contains some lower-cased query word of length > 4. -/
def keywordPick (q : String) (names : List String) : Option String :=
  let qk := ((pySplit q).filter (fun w => 4 < w.length)).map pyLower
  names.find? (fun n => qk.any (fun k => containsStr (pyLower n) k))

/-- Course resolution, lines 726-775: exact membership short-circuits;
otherwise the scan's best_match is used whenever it exists (both
branches at 753-758 assign it); otherwise the keyword fallback;
otherwise the first course in iteration order. -/
def resolveCourse (guess q : String) (names : List String) : String :=
  if guess ∈ names then guess
  else
    match (names.foldl (scanStep guess q) (none, 0)).1 with
    | some best => best
    | none =>
      match keywordPick q names with
      | some n => n
      | none => names.headI

/-! ### Data model -/

/-- A Canvas module as consumed by find_resources: an id and a name. -/
structure CanvasModule where
  id : Nat
  name : String
deriving DecidableEq

/-- A Canvas module item; optional fields mirror the dict.get calls at
lines 844-853 and the content_id presence test. -/
structure CanvasItem where
  id : Nat
  title : Option String
  type : Option String
  html_url : Option String
  content_id : Option Nat
deriving DecidableEq

/-- An output resource record (the dict built at lines 843-850); field
names follow the dict keys. -/
structure Resource where
  title : String
  type : String
  url : String
  course : String
  module : String
  relevance_score : ℚ
deriving DecidableEq

/-- The structured guess consumed from analyze_resource_relevance. -/
structure RAnalysis where
  resource_indices : List Int
  relevance_scores : List ℚ
  reasoning : String
deriving DecidableEq

/-- A record of the list returned by find_resources: a resource or one
of the synthetic error dicts (field names follow the dict keys). -/
inductive OutRec where
  | noCourses (error details : String)
  | noModules (error course : String)
  | noResources (error query course : String)
  | res (r : Resource)
deriving DecidableEq

/-- Trace of calls to the external collaborators made by one run, used
to state which classifier stages execute. -/
inductive Event where
  | getCourses
  | classifyCourse (query : String)
  | classifyModules (query : String)
  | classifyResources (query moduleName : String)
  | analyzeImage (path : String)
deriving DecidableEq

/-- True exactly on the course, module and resource classifier stages. -/
def isClassifierEvent : Event → Bool
  | .classifyCourse _ => true
  | .classifyModules _ => true
  | .classifyResources _ _ => true
  | _ => false

/-! ### External-call helpers of canvas.py -/

/-- Outcome of one analyze_image_with_gemini call.  The missing-key
branch at line 316 is dead code: line 314 falls back to a hardcoded
literal key, so api_key is never falsy. -/
inductive GeminiImageOutcome where
  | fileMissing
  | encodeError
  | apiError
  | apiSuccess (text : String)
  | unexpectedError
deriving DecidableEq

/-- analyze_image_with_gemini (lines 307-368) as a function of the call
outcome: each failure mode returns its own fixed fallback string. -/
def analyzeImageWithGemini : GeminiImageOutcome → String
  | .fileMissing => "Image could not be analyzed - file not found"
  | .encodeError => "Image could not be encoded properly"
  | .apiError => "Error analyzing image with AI - please try a text query instead"
  | .apiSuccess t => t
  | .unexpectedError => "Error analyzing image - please try a text query instead"

/-- Query/image-text combination from find_resources lines 699-703. -/
def combineImageQuery (query imageText : String) : String :=
  if query = "" then imageText else query ++ " - " ++ imageText

/-- Outcome of the Gemini call inside analyze_resource_relevance.  The
missing-key branch at line 578 is dead code because of the hardcoded
fallback key at 577. -/
inductive RROutcome where
  | parseError
  | apiError (msg : String)
  | unexpectedError (msg : String)
  | ok (r : RAnalysis)
deriving DecidableEq

/-- analyze_resource_relevance (lines 571-647): a parsed classifier
response is returned as is; every failure falls back to the first
min(3, N) items with fixed score 0.8 (= mkRat 8 10). -/
def analyze_resource_relevance : RROutcome → Nat → RAnalysis
  | .ok r, _ => r
  | .parseError, n =>
    ⟨(List.range (min 3 n)).map Int.ofNat, List.replicate (min 3 n) (mkRat 8 10),
      "Default selection due to parsing error"⟩
  | .apiError m, n =>
    ⟨(List.range (min 3 n)).map Int.ofNat, List.replicate (min 3 n) (mkRat 8 10),
      "Default selection due to API error: " ++ m⟩
  | .unexpectedError m, n =>
    ⟨(List.range (min 3 n)).map Int.ofNat, List.replicate (min 3 n) (mkRat 8 10),
      "Default selection due to error: " ++ m⟩

/-- A raw course entry of the Canvas courses response; get_courses keeps
only entries carrying both an id and a name (lines 71-75). -/
structure RawCourse where
  id : Option Nat
  name : Option String
deriving DecidableEq

/-- Python dict insertion d[k] = v: an existing key keeps its position
and receives the new value, a new key is appended. -/
def dictInsert (l : List (String × Nat)) (k : String) (v : Nat) : List (String × Nat) :=
  if l.any (fun p => p.1 == k) then l.map (fun p => if p.1 == k then (k, v) else p)
  else l ++ [(k, v)]

/-- The name-to-id mapping built from the response body (lines 69-75). -/
def extractCourses (body : List RawCourse) : List (String × Nat) :=
  body.foldl
    (fun out c =>
      match c.id, c.name with
      | some i, some n => dictInsert out n i
      | _, _ => out)
    []

/-- The mock mapping returned by get_courses on every failure path. -/
def mockCourses : List (String × Nat) := [("Mock Course 1", 1001), ("Mock Course 2", 1002)]

/-- Outcome of the HTTP interaction inside get_courses. -/
inductive CoursesOutcome where
  | keyMissing
  | badStatus (code : Nat) (text : String)
  | connectionError (msg : String)
  | unexpectedError (msg : String)
  | parsed (body : List RawCourse)
deriving DecidableEq

/-- get_courses (lines 39-106): a missing credential, a non-200 status,
a connection error, any unexpected error, and also an empty extracted
mapping all return the mock data; only a non-empty extracted mapping is
returned as is. -/
def get_courses : CoursesOutcome → List (String × Nat)
  | .keyMissing => mockCourses
  | .badStatus _ _ => mockCourses
  | .connectionError _ => mockCourses
  | .unexpectedError _ => mockCourses
  | .parsed body =>
    let out := extractCourses body
    if out.isEmpty then mockCourses else out

/-! ### Merge-and-sort (find_resources, lines 861-862)

list.sort(key=score, reverse=True) is a stable descending sort; it is
modelled by insertion from the right, where an element is placed before
the first element whose score is not greater, so that equal scores keep
their original order.
-/

/-- Stable descending insertion by relevance_score. -/
def insertByScore (x : Resource) : List Resource → List Resource
  | [] => [x]
  | y :: ys =>
    if y.relevance_score ≤ x.relevance_score then x :: y :: ys
    else y :: insertByScore x ys

/-- The stable descending sort applied to the merged resource list. -/
def sortResources (l : List Resource) : List Resource := l.foldr insertByScore []

/-- Descending orderedness by relevance_score. -/
def SortedByScore (l : List Resource) : Prop :=
  List.Pairwise (fun a b => b.relevance_score ≤ a.relevance_score) l

/-- Resource records carrying only scores, for the merge examples. -/
def mkScored (scores : List ℚ) : List Resource :=
  scores.map (fun s => ⟨"", "", "", "", "", s⟩)

/-! ### The pipeline orchestrator (find_resources, lines 690-883) -/

/-- Oracle environment: the Canvas catalog and the Gemini classifier as
observed by one find_resources run, plus the filesystem check used by
the image branch. -/
structure Env where
  courses : List (String × Nat)
  modules : Nat → List CanvasModule
  items : Nat → Nat → List CanvasItem
  fileUrl : Nat → Nat → String
  courseGuess : String → String
  moduleGuess : String → List String
  resourceGuess : String → String → String → RAnalysis
  pathExists : String → Bool
  imageOutcome : String → GeminiImageOutcome

/-- Python dict lookup courses[name]; a KeyError is none. -/
def lookupDict (l : List (String × Nat)) (k : String) : Option Nat :=
  (l.find? (fun p => p.1 == k)).map Prod.snd

/-- The resource dict built at lines 843-856, including the file-URL
replacement for File items with a content_id. -/
def buildResource (courseName moduleName : String) (courseId : Nat)
    (fileUrl : Nat → Nat → String) (item : CanvasItem) (score : ℚ) : Resource :=
  let url0 := item.html_url.getD ""
  let url :=
    match item.type, item.content_id with
    | some t, some cid =>
      if t = "File" then (if fileUrl courseId cid = "" then url0 else fileUrl courseId cid)
      else url0
    | _, _ => url0
  ⟨item.title.getD "Untitled Resource", item.type.getD "Unknown", url,
    courseName, moduleName, score⟩

/-- The index loop at lines 839-858: indices with idx < len(items) are
looked up with Python indexing (negative values count from the end, and
an index below -len(items) is an IndexError, i.e. none); indices
idx >= len(items) are silently skipped; the score for list position
idx_pos defaults to 0.5 when relevance_scores is too short. -/
def collectGo (items : List CanvasItem) (courseName moduleName : String) (courseId : Nat)
    (fileUrl : Nat → Nat → String) (scores : List ℚ) :
    Nat → List Int → Option (List Resource)
  | _, [] => some []
  | pos, idx :: rest =>
    if idx < (items.length : Int) then
      match pyIndex items idx with
      | none => none
      | some item =>
        match collectGo items courseName moduleName courseId fileUrl scores (pos + 1) rest with
        | none => none
        | some rs =>
          some (buildResource courseName moduleName courseId fileUrl item
            (scores.getD pos (mkRat 5 10)) :: rs)
    else collectGo items courseName moduleName courseId fileUrl scores (pos + 1) rest

/-- The independent keyword pass over module names (lines 801-802):
some lower-cased query word of length > 3 occurs in the module name. -/
def moduleKeywordHit (query name : String) : Bool :=
  ((pySplit (pyLower query)).filter (fun w => 3 < w.length)).any
    (fun k => containsStr (pyLower name) (pyLower k))

/-- Module selection (lines 795-809): modules named by the classifier
or hit by a query keyword, else the first two modules. -/
def selectModules (query : String) (guessNames : List String)
    (modules : List CanvasModule) : List CanvasModule :=
  let relevant := modules.filter
    (fun m => guessNames.contains m.name || moduleKeywordHit query m.name)
  if relevant.isEmpty then modules.take 2 else relevant

/-- The per-module loop (lines 816-859): fetch items, skip silently when
empty, otherwise classify and collect; a crash inside collection aborts
the run.  Also returns the trace of resource-stage classifier calls. -/
def processModules (env : Env) (query courseName : String) (courseId : Nat) :
    List CanvasModule → Option (List Resource) × List Event
  | [] => (some [], [])
  | m :: rest =>
    let items := env.items courseId m.id
    if items.isEmpty then processModules env query courseName courseId rest
    else
      let ra := env.resourceGuess query courseName m.name
      match collectGo items courseName m.name courseId env.fileUrl
          ra.relevance_scores 0 ra.resource_indices with
      | none => (none, [Event.classifyResources query m.name])
      | some rs =>
        let pr := processModules env query courseName courseId rest
        (pr.1.map (fun more => rs ++ more), Event.classifyResources query m.name :: pr.2)

/-- Events of the optional image stage (lines 696-704). -/
def imageEvents (env : Env) (imagePath : Option String) : List Event :=
  match imagePath with
  | some p => if !p.isEmpty && env.pathExists p then [Event.analyzeImage p] else []
  | none => []

/-- The query that feeds every later stage: the original query combined
with the image analysis when an image path is given and exists
(lines 696-704). -/
def effQuery (env : Env) (q0 : String) (imagePath : Option String) : String :=
  match imagePath with
  | some p =>
    if !p.isEmpty && env.pathExists p then
      combineImageQuery q0 (analyzeImageWithGemini (env.imageOutcome p))
    else q0
  | none => q0

/-- The course name selected by lines 715-775 for one run. -/
def resolvedCourseName (env : Env) (q0 : String) (imagePath : Option String) : String :=
  resolveCourse (env.courseGuess (effQuery env q0 imagePath)) (effQuery env q0 imagePath)
    (env.courses.map Prod.fst)

/-- find_resources (lines 690-883).  The first component is the returned
list (none models an uncaught exception), the second the trace of
collaborator calls. -/
def findResources (env : Env) (q0 : String) (imagePath : Option String) :
    Option (List OutRec) × List Event :=
  let query := effQuery env q0 imagePath
  let ev1 := imageEvents env imagePath ++ [Event.getCourses]
  if env.courses.isEmpty then
    (some [OutRec.noCourses "No courses found" "Please check your Canvas API configuration"], ev1)
  else
    let ev2 := ev1 ++ [Event.classifyCourse query]
    let courseName := resolvedCourseName env q0 imagePath
    match lookupDict env.courses courseName with
    | none => (none, ev2)
    | some courseId =>
      let modules := env.modules courseId
      if modules.isEmpty then
        (some [OutRec.noModules "No modules found" courseName], ev2)
      else
        let ev3 := ev2 ++ [Event.classifyModules query]
        let pm := processModules env query courseName courseId
          (selectModules query (env.moduleGuess query) modules)
        match pm.1 with
        | none => (none, ev3 ++ pm.2)
        | some rs =>
          let sorted := sortResources rs
          if sorted.isEmpty then
            (some [OutRec.noResources "No relevant resources found" query courseName],
              ev3 ++ pm.2)
          else (some (sorted.map OutRec.res), ev3 ++ pm.2)

/-! ### Concrete fixtures used by the witnesses -/

/-- An environment whose catalog lists no course at all. -/
def emptyEnv : Env :=
  { courses := []
    modules := fun _ => []
    items := fun _ _ => []
    fileUrl := fun _ _ => ""
    courseGuess := fun _ => ""
    moduleGuess := fun _ => []
    resourceGuess := fun _ _ _ => ⟨[], [], ""⟩
    pathExists := fun _ => false
    imageOutcome := fun _ => GeminiImageOutcome.apiError }

/-- An environment with one course and one module without items, so a
run reaches the merge step with an empty resource sequence. -/
def bareCourseEnv : Env :=
  { courses := [("Course A", 7)]
    modules := fun _ => [⟨1, "Module 1"⟩]
    items := fun _ _ => []
    fileUrl := fun _ _ => ""
    courseGuess := fun _ => ""
    moduleGuess := fun _ => []
    resourceGuess := fun _ _ _ => ⟨[], [], ""⟩
    pathExists := fun _ => false
    imageOutcome := fun _ => GeminiImageOutcome.apiError }

/-- An environment in which the image path exists and the image
classifier call fails. -/
def imageEnv : Env :=
  { courses := [("Course A", 7)]
    modules := fun _ => []
    items := fun _ _ => []
    fileUrl := fun _ _ => ""
    courseGuess := fun _ => ""
    moduleGuess := fun _ => []
    resourceGuess := fun _ _ _ => ⟨[], [], ""⟩
    pathExists := fun _ => true
    imageOutcome := fun _ => GeminiImageOutcome.apiError }

/-- Two concrete module items. -/
def itemOne : CanvasItem := ⟨3001, some "Mock Item 1", some "Page", some "https://example.com/item1", none⟩

/-- Second concrete module item. -/
def itemTwo : CanvasItem := ⟨3002, some "Mock Item 2", some "Assignment", some "https://example.com/item2", none⟩

/-! ### Lemmas about the course-resolution scan -/

theorem overlapScore_nonneg (q n : String) : 0 ≤ overlapScore q n := by
  unfold overlapScore
  split
  · exact le_refl 0
  · exact Rat.mkRat_nonneg (Int.natCast_nonneg _) _

theorem overlapScore_eq_zero {q n : String}
    (h : wordsGT3 q = [] ∨ wordsGT3 n = []) : overlapScore q n = 0 := by
  unfold overlapScore
  exact if_pos h

theorem maxFrom_cons (q : String) (s : ℚ) (n : String) (t : List String) :
    maxFrom q s (n :: t) =
      maxFrom q (if s < overlapScore q n then overlapScore q n else s) t := rfl

theorem le_maxFrom (q : String) (s : ℚ) (names : List String) : s ≤ maxFrom q s names := by
  induction names generalizing s with
  | nil => exact le_refl s
  | cons n t ih =>
    rw [maxFrom_cons]
    refine le_trans ?_ (ih _)
    by_cases h : s < overlapScore q n
    · rw [if_pos h]; exact h.le
    · rw [if_neg h]

theorem mem_le_maxFrom (q : String) {names : List String} {n : String}
    (h : n ∈ names) (s : ℚ) : overlapScore q n ≤ maxFrom q s names := by
  induction names generalizing s with
  | nil => cases h
  | cons m t ih =>
    rw [maxFrom_cons]
    rcases List.mem_cons.mp h with he | hmem
    · subst he
      refine le_trans ?_ (le_maxFrom q _ t)
      by_cases hlt : s < overlapScore q n
      · rw [if_pos hlt]
      · rw [if_neg hlt]; exact le_of_not_lt hlt
    · exact ih hmem _

theorem maxFrom_attained (q : String) {s : ℚ} {names : List String}
    (h : s < maxFrom q s names) :
    ∃ n ∈ names, overlapScore q n = maxFrom q s names := by
  induction names generalizing s with
  | nil => exact absurd h (lt_irrefl s)
  | cons m t ih =>
    rw [maxFrom_cons] at h ⊢
    by_cases hlt : s < overlapScore q m
    · rw [if_pos hlt] at h ⊢
      by_cases h2 : overlapScore q m < maxFrom q (overlapScore q m) t
      · obtain ⟨n, hn, he⟩ := ih h2
        exact ⟨n, List.mem_cons_of_mem _ hn, he⟩
      · have heq : maxFrom q (overlapScore q m) t = overlapScore q m :=
          le_antisymm (le_of_not_lt h2) (le_maxFrom _ _ _)
        exact ⟨m, List.mem_cons_self _ _, heq.symm⟩
    · rw [if_neg hlt] at h ⊢
      obtain ⟨n, hn, he⟩ := ih h
      exact ⟨n, List.mem_cons_of_mem _ hn, he⟩

theorem scan_stable (g q : String) (names : List String) (b : String) (s : ℚ)
    (h : ∀ n ∈ names, overlapScore q n ≤ s) :
    names.foldl (scanStep g q) (some b, s) = (some b, s) := by
  induction names with
  | nil => rfl
  | cons m t ih =>
    have hstep : scanStep g q (some b, s) m = (some b, s) := by
      unfold scanStep
      split
      · rw [if_neg (not_lt.mpr (h m (List.mem_cons_self m t)))]
      · split
        · simp
        · rfl
    rw [List.foldl_cons, hstep]
    exact ih fun n hn => h n (List.mem_cons_of_mem m hn)

theorem scan_main (g q : String) (names : List String) :
    ∀ (b : Option String) (s : ℚ), 0 ≤ s → s < maxFrom q s names →
    names.foldl (scanStep g q) (b, s) =
      ((names.find? fun n => decide (overlapScore q n = maxFrom q s names)),
        maxFrom q s names) := by
  induction names with
  | nil =>
    intro b s _ h
    exact absurd h (lt_irrefl s)
  | cons m t ih =>
    intro b s h0 hlt
    rw [List.foldl_cons]
    rw [maxFrom_cons] at hlt ⊢
    by_cases hc : wordsGT3 q ≠ [] ∧ wordsGT3 m ≠ []
    · have hstep : scanStep g q (b, s) m =
          (if s < overlapScore q m then (some m, overlapScore q m) else (b, s)) := by
        unfold scanStep
        rw [if_pos hc]
      by_cases hsm : s < overlapScore q m
      · rw [if_pos hsm] at hlt ⊢
        rw [hstep, if_pos hsm]
        by_cases hrest : overlapScore q m < maxFrom q (overlapScore q m) t
        · rw [ih (some m) (overlapScore q m) (le_trans h0 hsm.le) hrest]
          rw [List.find?_cons_of_neg]
          intro hcontra
          exact (ne_of_lt hrest) (of_decide_eq_true hcontra)
        · have heq : maxFrom q (overlapScore q m) t = overlapScore q m :=
            le_antisymm (le_of_not_lt hrest) (le_maxFrom _ _ _)
          have hall : ∀ n ∈ t, overlapScore q n ≤ overlapScore q m :=
            fun n hn => le_of_le_of_eq (mem_le_maxFrom q hn _) heq
          rw [scan_stable g q t m (overlapScore q m) hall, heq]
          have hp : List.find? (fun n => decide (overlapScore q n = overlapScore q m))
              (m :: t) = some m := List.find?_cons_of_pos t (by simp)
          rw [hp]
      · rw [if_neg hsm] at hlt ⊢
        rw [hstep, if_neg hsm]
        rw [ih b s h0 hlt]
        rw [List.find?_cons_of_neg]
        intro hcontra
        exact (ne_of_lt (lt_of_le_of_lt (le_of_not_lt hsm) hlt)) (of_decide_eq_true hcontra)
    · have hzero : overlapScore q m = 0 := by
        apply overlapScore_eq_zero
        by_contra hno
        push_neg at hno
        exact hc ⟨hno.1, hno.2⟩
      have hnot : ¬ s < overlapScore q m := by
        rw [hzero]; exact not_lt.mpr h0
      rw [if_neg hnot] at hlt ⊢
      have hstep : ∃ b', scanStep g q (b, s) m = (b', s) := by
        unfold scanStep
        rw [if_neg hc]
        split
        · split
          · exact ⟨some m, rfl⟩
          · exact ⟨b, rfl⟩
        · exact ⟨b, rfl⟩
      obtain ⟨b', hb'⟩ := hstep
      rw [hb', ih b' s h0 hlt]
      rw [List.find?_cons_of_neg]
      rw [hzero]
      intro hcontra
      exact (ne_of_lt (lt_of_le_of_lt h0 hlt)) (of_decide_eq_true hcontra)

theorem scan_mem (g q : String) (names : List String) :
    ∀ (st : Option String × ℚ) (b : String),
    (names.foldl (scanStep g q) st).1 = some b → st.1 = some b ∨ b ∈ names := by
  induction names with
  | nil => intro st b h; exact Or.inl h
  | cons m t ih =>
    intro st b h
    rw [List.foldl_cons] at h
    rcases ih _ b h with h1 | h2
    · have hs : (scanStep g q st m).1 = st.1 ∨ (scanStep g q st m).1 = some m := by
        unfold scanStep
        split
        · split
          · exact Or.inr rfl
          · exact Or.inl rfl
        · split
          · split
            · exact Or.inr rfl
            · exact Or.inl rfl
          · exact Or.inl rfl
      rcases hs with h3 | h3
      · exact Or.inl (h3 ▸ h1)
      · right
        rw [h3] at h1
        exact List.mem_cons.mpr (Or.inl (Option.some.inj h1).symm)
    · exact Or.inr (List.mem_cons_of_mem m h2)

/-! ### Lemmas about resolveCourse -/

theorem resolveCourse_mem (guess q : String) (names : List String) (h : names ≠ []) :
    resolveCourse guess q names ∈ names := by
  unfold resolveCourse
  by_cases hg : guess ∈ names
  · rw [if_pos hg]; exact hg
  · rw [if_neg hg]
    rcases hscan : (names.foldl (scanStep guess q) (none, 0)).1 with _ | best
    · rcases hkw : keywordPick q names with _ | n
      · cases names with
        | nil => exact absurd rfl h
        | cons a t => exact List.mem_cons_self a t
      · exact List.mem_of_find?_eq_some hkw
    · rcases scan_mem guess q names (none, 0) best hscan with h1 | h2
      · exact absurd h1 (by simp)
      · exact h2

theorem resolveCourse_find_max (guess q : String) (names : List String)
    (hg : guess ∉ names) (hM : 0 < maxFrom q 0 names) :
    names.find? (fun n => decide (overlapScore q n = maxFrom q 0 names)) =
      some (resolveCourse guess q names) := by
  have hscan := scan_main guess q names none 0 le_rfl hM
  have hfst : (names.foldl (scanStep guess q) (none, 0)).1 =
      names.find? (fun n => decide (overlapScore q n = maxFrom q 0 names)) := by
    rw [hscan]
  obtain ⟨x, hx, hpx⟩ := maxFrom_attained q hM
  have hsome : (names.find? (fun n => decide (overlapScore q n = maxFrom q 0 names))).isSome := by
    rw [List.find?_isSome]
    exact ⟨x, hx, decide_eq_true hpx⟩
  obtain ⟨y, hy⟩ := Option.isSome_iff_exists.mp hsome
  unfold resolveCourse
  rw [if_neg hg, hfst, hy]

theorem lookupDict_mem (courses : List (String × Nat)) (n : String)
    (h : n ∈ courses.map Prod.fst) : ∃ cid, lookupDict courses n = some cid := by
  induction courses with
  | nil => simp at h
  | cons p t ih =>
    rw [List.map_cons] at h
    by_cases hp : (p.1 == n) = true
    · exact ⟨p.2, by unfold lookupDict; rw [List.find?_cons_of_pos t hp]; rfl⟩
    · have hmem : n ∈ t.map Prod.fst := by
        rcases List.mem_cons.mp h with he | hm
        · exact absurd (by simp [he]) hp
        · exact hm
      obtain ⟨cid, hcid⟩ := ih hmem
      refine ⟨cid, ?_⟩
      unfold lookupDict at hcid ⊢
      rw [List.find?_cons_of_neg t hp]
      exact hcid

/-! ### Lemmas about the merge-and-sort step -/

theorem insertByScore_perm (x : Resource) (l : List Resource) :
    (insertByScore x l).Perm (x :: l) := by
  induction l with
  | nil => exact List.Perm.refl _
  | cons y ys ih =>
    unfold insertByScore
    split
    · exact List.Perm.refl _
    · exact (ih.cons y).trans (List.Perm.swap x y ys)

theorem sortResources_perm (l : List Resource) : (sortResources l).Perm l := by
  induction l with
  | nil => exact List.Perm.refl _
  | cons x t ih =>
    have h1 : sortResources (x :: t) = insertByScore x (sortResources t) := rfl
    rw [h1]
    exact (insertByScore_perm x (sortResources t)).trans (ih.cons x)

theorem insertByScore_sorted {x : Resource} {l : List Resource}
    (h : SortedByScore l) : SortedByScore (insertByScore x l) := by
  induction l with
  | nil => exact List.pairwise_singleton _ _
  | cons y ys ih =>
    have h' := List.pairwise_cons.mp h
    unfold insertByScore
    split
    · rename_i hle
      refine List.pairwise_cons.mpr ⟨?_, h⟩
      intro z hz
      rcases List.mem_cons.mp hz with he | hm
      · rw [he]; exact hle
      · exact le_trans (h'.1 z hm) hle
    · rename_i hgt
      refine List.pairwise_cons.mpr ⟨?_, ih h'.2⟩
      intro z hz
      rcases List.mem_cons.mp ((insertByScore_perm x ys).mem_iff.mp hz) with he | hm
      · rw [he]; exact le_of_lt (lt_of_not_le hgt)
      · exact h'.1 z hm

theorem sortResources_sorted (l : List Resource) : SortedByScore (sortResources l) := by
  induction l with
  | nil => exact List.Pairwise.nil
  | cons x t ih => exact insertByScore_sorted ih

theorem insertByScore_filter (x : Resource) (l : List Resource) (s : ℚ) :
    (insertByScore x l).filter (fun r => decide (r.relevance_score = s)) =
      if x.relevance_score = s then
        x :: l.filter (fun r => decide (r.relevance_score = s))
      else l.filter (fun r => decide (r.relevance_score = s)) := by
  induction l with
  | nil =>
    by_cases hx : x.relevance_score = s
    · rw [if_pos hx]; simp [insertByScore, hx]
    · rw [if_neg hx]; simp [insertByScore, hx]
  | cons y ys ih =>
    unfold insertByScore
    split
    · rename_i hle
      by_cases hx : x.relevance_score = s
      · rw [if_pos hx]; simp [List.filter_cons, hx]
      · rw [if_neg hx]; simp [List.filter_cons, hx]
    · rename_i hgt
      by_cases hx : x.relevance_score = s
      · have hy : ¬ (y.relevance_score = s) := by
          intro hy
          exact hgt (le_of_eq (hx ▸ hy))
        rw [if_pos hx]
        simp [List.filter_cons, hy, ih, hx]
      · rw [if_neg hx]
        simp [List.filter_cons, ih, hx]

theorem sortResources_filter (l : List Resource) (s : ℚ) :
    (sortResources l).filter (fun r => decide (r.relevance_score = s)) =
      l.filter (fun r => decide (r.relevance_score = s)) := by
  induction l with
  | nil => rfl
  | cons x t ih =>
    have h1 : sortResources (x :: t) = insertByScore x (sortResources t) := rfl
    rw [h1, insertByScore_filter]
    by_cases hx : x.relevance_score = s
    · rw [if_pos hx, ih]
      simp [List.filter_cons, hx]
    · rw [if_neg hx, ih]
      simp [List.filter_cons, hx]

theorem sortResources_eq_of_sorted {l : List Resource} (h : SortedByScore l) :
    sortResources l = l := by
  induction l with
  | nil => rfl
  | cons x t ih =>
    have h' := List.pairwise_cons.mp h
    have h1 : sortResources (x :: t) = insertByScore x (sortResources t) := rfl
    rw [h1, ih h'.2]
    cases t with
    | nil => rfl
    | cons y ys =>
      unfold insertByScore
      rw [if_pos (h'.1 y (List.mem_cons_self y ys))]

/-! ### The claims -/

/-- C1: for every non-empty course mapping and any classifier guess
(including names absent from the mapping), the course resolution in
find_resources ends with a selected name that is a key of the fetched
mapping, so the lookup courses[course_name] is defined; the raw guess
itself is used downstream only when it is a member of the ground-truth
set. -/
theorem course_resolution_stays_in_catalog (guess q : String) :
    (∀ names : List String, names ≠ [] →
      resolveCourse guess q names ∈ names ∧
      (resolveCourse guess q names = guess → guess ∈ names)) ∧
    (∀ courses : List (String × Nat), courses ≠ [] →
      ∃ cid, lookupDict courses (resolveCourse guess q (courses.map Prod.fst)) = some cid) := by
  constructor
  · intro names h
    have hm := resolveCourse_mem guess q names h
    exact ⟨hm, fun he => he ▸ hm⟩
  · intro courses h
    have hne : courses.map Prod.fst ≠ [] := fun hmap => h (List.map_eq_nil_iff.mp hmap)
    exact lookupDict_mem courses _ (resolveCourse_mem guess q _ hne)

/-- Witness for C1 at the spec's scenario: guess "CSE520" over the two
courses with ids 10 and 20. -/
theorem course_resolution_stays_in_catalog_witness :
    resolveCourse "CSE520" "How do process scheduling algorithms work in operating systems?"
        ["CSE 520: Operating Systems", "MAT 343: Linear Algebra"] ∈
      (["CSE 520: Operating Systems", "MAT 343: Linear Algebra"] : List String) ∧
    ∃ cid, lookupDict [("CSE 520: Operating Systems", 10), ("MAT 343: Linear Algebra", 20)]
        (resolveCourse "CSE520" "How do process scheduling algorithms work in operating systems?"
          ([("CSE 520: Operating Systems", 10), ("MAT 343: Linear Algebra", 20)].map Prod.fst)) =
      some cid :=
  ⟨((course_resolution_stays_in_catalog "CSE520"
      "How do process scheduling algorithms work in operating systems?").1 _ (by decide)).1,
    (course_resolution_stays_in_catalog "CSE520"
      "How do process scheduling algorithms work in operating systems?").2 _ (by decide)⟩

/-- C2 counterexample: the guess "cs1" substring-matches the course
"cs1 v2" (whose name has no tokens longer than 3, so the code reaches
its substring branch), yet resolution returns the token-overlap result
"operating systems" — so a substring match is NOT preferred over a
token-overlap result. -/
theorem substring_priority_counterexample :
    resolveCourse "cs1" "operating systems question" ["cs1 v2", "operating systems"]
        = "operating systems" ∧
    substrMatch "cs1" "cs1 v2" = true ∧
    substrMatch "cs1" "operating systems" = false ∧
    "cs1" ∉ (["cs1 v2", "operating systems"] : List String) ∧
    wordsGT3 "cs1 v2" = [] ∧
    overlapScore "operating systems question" "operating systems" = 1 ∧
    "operating systems" ≠ "cs1 v2" := by
  refine ⟨by decide, by decide, by decide, by decide, by decide, by decide, by decide⟩

/-- C2 (amended): an exact match of the raw guess short-circuits
everything, but below it the order differs from the claim: the single
scan prefers the query-token-overlap result over any substring match —
whenever some candidate has a positive overlap score against the QUERY,
resolution returns the first candidate attaining the maximal score —
and only when the scan records nothing do the query-keyword fallback
(words longer than 4) and the first-candidate default apply, in that
order. -/
theorem course_resolution_stage_order (guess q : String) (names : List String) :
    (guess ∈ names → resolveCourse guess q names = guess) ∧
    (guess ∉ names → 0 < maxFrom q 0 names →
      names.find? (fun n => decide (overlapScore q n = maxFrom q 0 names)) =
        some (resolveCourse guess q names)) ∧
    (guess ∉ names → (names.foldl (scanStep guess q) (none, 0)).1 = none →
      resolveCourse guess q names = (keywordPick q names).getD names.headI) := by
  refine ⟨?_, ?_, ?_⟩
  · intro hg
    unfold resolveCourse
    rw [if_pos hg]
  · intro hg hM
    exact resolveCourse_find_max guess q names hg hM
  · intro hg hnone
    unfold resolveCourse
    rw [if_neg hg, hnone]
    cases keywordPick q names <;> rfl

/-- Witness for C2: the overlap stage selects the first maximal scorer
on the counterexample input, and an exactly-matching guess is returned
unchanged. -/
theorem course_resolution_stage_order_witness :
    List.find? (fun n => decide (overlapScore "operating systems question" n =
        maxFrom "operating systems question" 0 ["cs1 v2", "operating systems"]))
      ["cs1 v2", "operating systems"] =
      some (resolveCourse "cs1" "operating systems question" ["cs1 v2", "operating systems"]) ∧
    resolveCourse "operating systems" "anything" ["cs1 v2", "operating systems"]
      = "operating systems" :=
  ⟨(course_resolution_stage_order "cs1" "operating systems question"
      ["cs1 v2", "operating systems"]).2.1 (by decide) (by decide),
    (course_resolution_stage_order "operating systems" "anything"
      ["cs1 v2", "operating systems"]).1 (by decide)⟩

/-- C3 counterexample: the claim scores the RAW GUESS against the
candidates, which here gives "Advanced Operating Systems" the score 2/3
(well above 0.2) and "Matrix Spaces" the score 0, with no substring or
exact match anywhere — yet the code selects "Matrix Spaces", because it
scores the QUERY, not the guess. -/
theorem guess_tokenization_counterexample :
    resolveCourse "Operating Systems Fundamentals" "matrix spaces explained"
        ["Advanced Operating Systems", "Matrix Spaces"] = "Matrix Spaces" ∧
    specGuessScore "Operating Systems Fundamentals" "Advanced Operating Systems" = mkRat 2 3 ∧
    mkRat 1 5 ≤ mkRat 2 3 ∧
    specGuessScore "Operating Systems Fundamentals" "Matrix Spaces" = 0 ∧
    substrMatch "Operating Systems Fundamentals" "Advanced Operating Systems" = false ∧
    substrMatch "Operating Systems Fundamentals" "Matrix Spaces" = false ∧
    "Operating Systems Fundamentals" ∉
      (["Advanced Operating Systems", "Matrix Spaces"] : List String) ∧
    "Advanced Operating Systems" ≠ "Matrix Spaces" := by
  refine ⟨by decide, by decide, by decide, by decide, by decide, by decide, by decide, by decide⟩

/-- C3 (amended): the token-overlap stage tokenizes the free-text QUERY
(not the raw guess) and every candidate into lower-cased words of
length > 3 and scores |intersection| / min; a query identical to a
string with a non-empty token set scores 1.0; and the highest-scoring
candidate is accepted whenever its score is positive — the 0.2
threshold only chooses a log message, so maxima below 0.2 are accepted
as well (the witness accepts at 1/6). -/
theorem token_overlap_scoring :
    (∀ s : String, wordsGT3 s ≠ [] → overlapScore s s = 1) ∧
    (∀ (guess q : String) (names : List String), guess ∉ names →
      0 < maxFrom q 0 names →
      overlapScore q (resolveCourse guess q names) = maxFrom q 0 names) := by
  constructor
  · intro s hs
    have hk : (wordsGT3 s).length ≠ 0 := fun h0 => hs (List.length_eq_zero.mp h0)
    unfold overlapScore
    rw [if_neg (by simp [hs])]
    rw [List.filter_eq_self.mpr (fun a ha => decide_eq_true ha), min_self, Rat.mkRat_eq_div]
    push_cast
    exact div_self (Nat.cast_ne_zero.mpr hk)
  · intro guess q names hg hM
    have hfind := resolveCourse_find_max guess q names hg hM
    have hp := List.find?_some hfind
    exact of_decide_eq_true hp

/-- Witness for C3: a literal identical pair scores 1, and a maximal
score of 1/6 < 0.2 is still accepted. -/
theorem token_overlap_scoring_witness :
    overlapScore "Linear Algebra" "Linear Algebra" = 1 ∧
    overlapScore "alpha1 alpha2 alpha3 alpha4 alpha5 common9"
        (resolveCourse "zzzz" "alpha1 alpha2 alpha3 alpha4 alpha5 common9"
          ["beta1x beta2x beta3x beta4x beta5x common9"]) =
      maxFrom "alpha1 alpha2 alpha3 alpha4 alpha5 common9" 0
        ["beta1x beta2x beta3x beta4x beta5x common9"] :=
  ⟨token_overlap_scoring.1 "Linear Algebra" (by decide),
    token_overlap_scoring.2 "zzzz" "alpha1 alpha2 alpha3 alpha4 alpha5 common9"
      ["beta1x beta2x beta3x beta4x beta5x common9"] (by decide) (by decide)⟩

/-- C4: when the resource-stage classifier output fails to parse,
analyze_resource_relevance returns resource_indices [0, ..., min(3,N)-1]
with min(3, N) copies of the relevance score 0.8 and never raises (it
is a total function of the outcome); for N = 4 this is [0, 1, 2] with
three copies of 0.8.  All fallback indices are in bounds. -/
theorem resource_fallback_on_parse_error (n : Nat) :
    (analyze_resource_relevance RROutcome.parseError n).resource_indices =
      (List.range (min 3 n)).map Int.ofNat ∧
    (analyze_resource_relevance RROutcome.parseError n).relevance_scores =
      List.replicate (min 3 n) (mkRat 8 10) ∧
    mkRat 8 10 = (0.8 : ℚ) ∧
    ((analyze_resource_relevance RROutcome.parseError n).resource_indices.all
      (fun i => decide (0 ≤ i ∧ i < (n : Int)))) = true ∧
    (analyze_resource_relevance RROutcome.parseError 4).resource_indices = [0, 1, 2] ∧
    (analyze_resource_relevance RROutcome.parseError 4).relevance_scores =
      [mkRat 8 10, mkRat 8 10, mkRat 8 10] := by
  refine ⟨rfl, rfl, by rw [Rat.mkRat_eq_div]; norm_num, ?_, by decide, by decide⟩
  rw [List.all_eq_true]
  intro i hi
  simp only [analyze_resource_relevance, List.mem_map, List.mem_range] at hi
  obtain ⟨k, hk, rfl⟩ := hi
  rw [Int.ofNat_eq_coe]
  refine decide_eq_true ⟨?_, ?_⟩
  · omega
  · omega

/-- C5: the merge step is a stable descending sort by relevance_score:
the output is sorted, a permutation of the input, keeps each
equal-score class in input order, and is idempotent; the spec's
two-module example [0.9, 0.4] ++ [0.95, 0.3] merges to
0.95, 0.9, 0.4, 0.3. -/
theorem resource_merge_sort_properties (l : List Resource) (s : ℚ) :
    SortedByScore (sortResources l) ∧
    (sortResources l).Perm l ∧
    (sortResources l).filter (fun r => decide (r.relevance_score = s)) =
      l.filter (fun r => decide (r.relevance_score = s)) ∧
    sortResources (sortResources l) = sortResources l ∧
    (sortResources (mkScored [mkRat 9 10, mkRat 4 10] ++ mkScored [mkRat 95 100, mkRat 3 10])).map
      (fun r => r.relevance_score) = [mkRat 95 100, mkRat 9 10, mkRat 4 10, mkRat 3 10] ∧
    mkRat 9 10 = (0.9 : ℚ) ∧ mkRat 4 10 = (0.4 : ℚ) ∧
    mkRat 95 100 = (0.95 : ℚ) ∧ mkRat 3 10 = (0.3 : ℚ) := by
  refine ⟨sortResources_sorted l, sortResources_perm l, sortResources_filter l s,
    sortResources_eq_of_sorted (sortResources_sorted l), by decide,
    ?_, ?_, ?_, ?_⟩ <;> (rw [Rat.mkRat_eq_div]; norm_num)

/-- C6: whenever the merged resource sequence is empty after processing
all resolved modules, find_resources returns exactly one synthetic
error record carrying "No relevant resources found", the (effective)
query and the resolved course name; and a run that returns at all never
returns an empty list. -/
theorem empty_merge_yields_error_record :
    (∀ (env : Env) (q : String) (img : Option String) (cid : Nat),
      env.courses ≠ [] →
      lookupDict env.courses (resolvedCourseName env q img) = some cid →
      env.modules cid ≠ [] →
      (processModules env (effQuery env q img) (resolvedCourseName env q img) cid
          (selectModules (effQuery env q img)
            (env.moduleGuess (effQuery env q img)) (env.modules cid))).1 = some [] →
      (findResources env q img).1 =
        some [OutRec.noResources "No relevant resources found" (effQuery env q img)
          (resolvedCourseName env q img)]) ∧
    (∀ (env : Env) (q : String) (img : Option String) (out : List OutRec),
      (findResources env q img).1 = some out → out ≠ []) := by
  constructor
  · intro env q img cid hc hlook hmod hempty
    have hcc : env.courses.isEmpty = false := List.isEmpty_eq_false.mpr hc
    have hmm : (env.modules cid).isEmpty = false := List.isEmpty_eq_false.mpr hmod
    simp only [findResources, hcc, hlook, hmm, hempty]
    simp [sortResources]
  · intro env q img out hout
    simp only [findResources] at hout
    split at hout
    · obtain rfl :
          [OutRec.noCourses "No courses found" "Please check your Canvas API configuration"]
            = out := Option.some.inj hout
      exact List.cons_ne_nil _ _
    · split at hout
      · simp at hout
      · split at hout
        · obtain rfl := Option.some.inj hout
          exact List.cons_ne_nil _ _
        · split at hout
          · simp at hout
          · split at hout
            · obtain rfl := Option.some.inj hout
              exact List.cons_ne_nil _ _
            · obtain rfl := Option.some.inj hout
              rename_i hs
              intro hnil
              rw [List.map_eq_nil_iff] at hnil
              exact hs (List.isEmpty_eq_true.mpr hnil)

/-- Witness for C6: a run over one course and one item-less module
reaches the merge with no resource and returns the single error
record, which is non-empty. -/
theorem empty_merge_yields_error_record_witness :
    (findResources bareCourseEnv "hi" none).1 =
      some [OutRec.noResources "No relevant resources found" "hi" "Course A"] ∧
    (∀ out : List OutRec, (findResources bareCourseEnv "hi" none).1 = some out → out ≠ []) := by
  have h1 := empty_merge_yields_error_record.1 bareCourseEnv "hi" none 7 (by decide)
    (by decide) (by decide) (by decide)
  exact ⟨h1, fun out hout => empty_merge_yields_error_record.2 bareCourseEnv "hi" none out hout⟩

/-- C7: with an empty course listing, find_resources returns the single
"No courses found" record together with a trace containing no course,
module or resource classifier call, and it does not crash. -/
theorem empty_courses_short_circuit (env : Env) (q : String) (img : Option String)
    (h : env.courses = []) :
    findResources env q img =
      (some [OutRec.noCourses "No courses found" "Please check your Canvas API configuration"],
        imageEvents env img ++ [Event.getCourses]) ∧
    (imageEvents env img ++ [Event.getCourses]).filter isClassifierEvent = [] := by
  constructor
  · simp only [findResources]
    rw [if_pos (List.isEmpty_eq_true.mpr h)]
  · cases img with
    | none => rfl
    | some p =>
      simp only [imageEvents]
      split
      · rfl
      · rfl

/-- Witness for C7 on a concrete environment with no courses. -/
theorem empty_courses_short_circuit_witness :
    findResources emptyEnv "query" none =
      (some [OutRec.noCourses "No courses found" "Please check your Canvas API configuration"],
        [Event.getCourses]) ∧
    ([Event.getCourses] : List Event).filter isClassifierEvent = [] := by
  have h := empty_courses_short_circuit emptyEnv "query" none rfl
  exact ⟨h.1, h.2⟩

/-- C8 counterexample: a Gemini classifier failure during image
analysis returns "Error analyzing image with AI - please try a text
query instead", which does not begin with "Image could not be
analyzed". -/
theorem image_sentinel_counterexample :
    analyzeImageWithGemini GeminiImageOutcome.apiError =
      "Error analyzing image with AI - please try a text query instead" ∧
    startsWithChars "Image could not be analyzed".data
      (analyzeImageWithGemini GeminiImageOutcome.apiError).data = false := by
  exact ⟨rfl, by decide⟩

/-- C8 (amended): every failure mode of the image concept extractor
returns one of four fixed fallback strings — only the missing-file one
beginning with "Image could not be analyzed" — and never raises; the
extractor's text is combined with a non-empty original query as
query ++ " - " ++ text, is used standalone when the query is empty,
and the combined text is the query handed to the course classifier
stage. -/
theorem image_fallback_and_query_combination :
    (∀ o : GeminiImageOutcome, (∀ t, o ≠ GeminiImageOutcome.apiSuccess t) →
      analyzeImageWithGemini o ∈
        ["Image could not be analyzed - file not found",
         "Image could not be encoded properly",
         "Error analyzing image with AI - please try a text query instead",
         "Error analyzing image - please try a text query instead"]) ∧
    startsWithChars "Image could not be analyzed".data
      (analyzeImageWithGemini GeminiImageOutcome.fileMissing).data = true ∧
    (∀ (env : Env) (q p : String), env.pathExists p = true → p ≠ "" → q ≠ "" →
      effQuery env q (some p) = q ++ " - " ++ analyzeImageWithGemini (env.imageOutcome p)) ∧
    (∀ (env : Env) (p : String), env.pathExists p = true → p ≠ "" →
      effQuery env "" (some p) = analyzeImageWithGemini (env.imageOutcome p)) ∧
    (∀ (env : Env) (q p : String), env.pathExists p = true → p ≠ "" → env.courses ≠ [] →
      Event.classifyCourse (effQuery env q (some p)) ∈ (findResources env q (some p)).2) := by
  refine ⟨?_, by decide, ?_, ?_, ?_⟩
  · intro o ho
    cases o with
    | fileMissing => simp [analyzeImageWithGemini]
    | encodeError => simp [analyzeImageWithGemini]
    | apiError => simp [analyzeImageWithGemini]
    | unexpectedError => simp [analyzeImageWithGemini]
    | apiSuccess t => exact absurd rfl (ho t)
  · intro env q p hp hpne hq
    have hpe : p.isEmpty = false := by
      rcases hb : p.isEmpty with _ | _
      · rfl
      · exact absurd ((String.isEmpty_iff p).mp hb) hpne
    simp only [effQuery]
    simp [hpe, hp, combineImageQuery, hq]
  · intro env p hp hpne
    have hpe : p.isEmpty = false := by
      rcases hb : p.isEmpty with _ | _
      · rfl
      · exact absurd ((String.isEmpty_iff p).mp hb) hpne
    simp only [effQuery]
    simp [hpe, hp, combineImageQuery]
  · intro env q p hp hpne hcne
    have hcc : env.courses.isEmpty = false := List.isEmpty_eq_false.mpr hcne
    simp only [findResources, hcc]
    rw [if_neg (by simp)]
    split
    · simp
    · split
      · simp
      · split
        · simp
        · split
          · simp
          · simp

/-- Witness for C8: the extractor's API-failure string is among the
fixed fallbacks; with an existing image path the course query is the
combination, standalone for an empty query, and the course classifier
receives it. -/
theorem image_fallback_and_query_combination_witness :
    analyzeImageWithGemini GeminiImageOutcome.encodeError ∈
      ["Image could not be analyzed - file not found",
       "Image could not be encoded properly",
       "Error analyzing image with AI - please try a text query instead",
       "Error analyzing image - please try a text query instead"] ∧
    effQuery imageEnv "what is this" (some "img.png") =
      "what is this" ++ " - " ++ analyzeImageWithGemini (imageEnv.imageOutcome "img.png") ∧
    effQuery imageEnv "" (some "img.png") =
      analyzeImageWithGemini (imageEnv.imageOutcome "img.png") ∧
    Event.classifyCourse (effQuery imageEnv "what is this" (some "img.png")) ∈
      (findResources imageEnv "what is this" (some "img.png")).2 :=
  ⟨image_fallback_and_query_combination.1 GeminiImageOutcome.encodeError
      (fun t => by intro hcontra; cases hcontra),
    image_fallback_and_query_combination.2.2.1 imageEnv "what is this" "img.png"
      rfl (by decide) (by decide),
    image_fallback_and_query_combination.2.2.2.1 imageEnv "img.png" rfl (by decide),
    image_fallback_and_query_combination.2.2.2.2 imageEnv "what is this" "img.png"
      rfl (by decide) (by decide)⟩

/-- C9 counterexample: with a missing credential (and likewise for an
empty parsed body) get_courses returns the fabricated mock mapping, not
an empty "unconfigured" signal. -/
theorem get_courses_mock_counterexample :
    get_courses CoursesOutcome.keyMissing = [("Mock Course 1", 1001), ("Mock Course 2", 1002)] ∧
    get_courses CoursesOutcome.keyMissing ≠ [] ∧
    get_courses (CoursesOutcome.parsed []) = [("Mock Course 1", 1001), ("Mock Course 2", 1002)] := by
  exact ⟨rfl, by decide, rfl⟩

/-- C9 (amended): on every failure mode — missing credential, non-200
status, connection error, unexpected error, and an empty extracted
mapping — get_courses returns the fixed non-empty mock mapping
{Mock Course 1: 1001, Mock Course 2: 1002} instead of an empty
"unconfigured" signal; only a non-empty parsed mapping is returned as
fetched. -/
theorem get_courses_failure_returns_mock (code : Nat) (text msg : String)
    (body : List RawCourse) :
    get_courses CoursesOutcome.keyMissing = mockCourses ∧
    get_courses (CoursesOutcome.badStatus code text) = mockCourses ∧
    get_courses (CoursesOutcome.connectionError msg) = mockCourses ∧
    get_courses (CoursesOutcome.unexpectedError msg) = mockCourses ∧
    (extractCourses body = [] → get_courses (CoursesOutcome.parsed body) = mockCourses) ∧
    (extractCourses body ≠ [] → get_courses (CoursesOutcome.parsed body) = extractCourses body) ∧
    mockCourses ≠ [] := by
  refine ⟨rfl, rfl, rfl, rfl, ?_, ?_, by decide⟩
  · intro h
    simp only [get_courses]
    rw [h]
    rfl
  · intro h
    simp only [get_courses]
    rw [if_neg (by simpa using h)]

/-- Witness for C9: a body whose single entry lacks an id extracts to
the empty mapping, and get_courses falls back to the mock data. -/
theorem get_courses_failure_returns_mock_witness :
    get_courses (CoursesOutcome.parsed [⟨none, some "Nameless"⟩]) = mockCourses ∧
    get_courses (CoursesOutcome.parsed [⟨some 42, some "Real Course"⟩]) =
      extractCourses [⟨some 42, some "Real Course"⟩] :=
  ⟨(get_courses_failure_returns_mock 0 "" "" [⟨none, some "Nameless"⟩]).2.2.2.2.1 rfl,
    (get_courses_failure_returns_mock 0 "" "" [⟨some 42, some "Real Course"⟩]).2.2.2.2.2.1
      (by decide)⟩

/-- C10: the bounds check at line 840 only rejects idx >= len(items);
for -N <= i <= -1 the check accepts i, Python indexing resolves it to
the item at position N + i, and the built resource is returned by the
collection loop. -/
theorem negative_index_accepted (items : List CanvasItem) (courseName moduleName : String)
    (courseId : Nat) (fileUrl : Nat → Nat → String) (scores : List ℚ) (pos : Nat)
    (i : Int) (hlow : -(items.length : Int) ≤ i) (hhigh : i ≤ -1) :
    (decide (i < (items.length : Int)) = true) ∧
    ∃ item, items.get? ((items.length : Int) + i).toNat = some item ∧
      collectGo items courseName moduleName courseId fileUrl scores pos [i] =
        some [buildResource courseName moduleName courseId fileUrl item
          (scores.getD pos (mkRat 5 10))] := by
  have hneg : i < 0 := lt_of_le_of_lt hhigh (by decide)
  have hlt : i < (items.length : Int) := lt_of_lt_of_le hneg (Int.natCast_nonneg _)
  refine ⟨decide_eq_true hlt, ?_⟩
  have hj0 : 0 ≤ (items.length : Int) + i := by omega
  have hjlt : ((items.length : Int) + i).toNat < items.length := by omega
  obtain ⟨item, hitem⟩ : ∃ item, items.get? ((items.length : Int) + i).toNat = some item :=
    ⟨items.get ⟨_, hjlt⟩, List.get?_eq_get hjlt⟩
  refine ⟨item, hitem, ?_⟩
  have hpy : pyIndex items i = some item := by
    simp only [pyIndex]
    rw [if_neg (not_le.mpr hneg)]
    simp only [if_pos hj0]
    exact hitem
  unfold collectGo
  rw [if_pos hlt, hpy]
  rfl

/-- Witness for C10: index -1 over a two-item list is accepted and
builds the resource from the second item. -/
theorem negative_index_accepted_witness :
    (decide ((-1 : Int) < (([itemOne, itemTwo] : List CanvasItem).length : Int)) = true) ∧
    ∃ item, ([itemOne, itemTwo] : List CanvasItem).get?
        ((([itemOne, itemTwo] : List CanvasItem).length : Int) + (-1)).toNat = some item ∧
      collectGo [itemOne, itemTwo] "Course A" "Module 1" 1 (fun _ _ => "") [mkRat 9 10] 0
          [(-1 : Int)] =
        some [buildResource "Course A" "Module 1" 1 (fun _ _ => "") item
          ([mkRat 9 10].getD 0 (mkRat 5 10))] :=
  negative_index_accepted [itemOne, itemTwo] "Course A" "Module 1" 1 (fun _ _ => "")
    [mkRat 9 10] 0 (-1) (by decide) (by decide)
